import Mathlib

/-!
# NDVI computation (`src/c/calculate_ndvi.c`)

A shallow embedding of the single C function `main` of the repository.

* The per-pixel body of the `for` loop (source lines 61-68) is `ndviPixel`.
* The loop itself (source lines 60-69) is `ndviLoop`, writing into the
  output buffer one index at a time.
* The surrounding I/O (open, create, metadata copy, read, write, exit status)
  is `main`, with the outcome of every library call an explicit input.

Numeric model: the C code works on `float`.  Here every sample is a rational
number and `/`, `+`, `-` are exact, so the development speaks about the
arithmetic the formula denotes, not about binary32 rounding, infinities or
NaN.  `width` and `height` are natural numbers: the runs covered are those
where `width * height` fits in an `int` and the three `malloc` calls succeed.
-/

namespace NDVI

/-! ## The pixel transform -/

/-- Source line 57: `const float scale = 10000.0;`. -/
def scale : ℚ := 10000

/-- Source lines 61-68: the value stored in `ndviBand[i]`, from the two raw
samples `nirBand[i]` and `redBand[i]`; the scale is a parameter.  The guard of
line 64 is on the reflectances `nir` and `red`, and `-999` is the literal
`-999.0` of line 67. -/
def ndviPixel (scale nirRaw redRaw : ℚ) : ℚ :=
  let nir := nirRaw / scale
  let red := redRaw / scale
  if nir + red > 0 then
    (nir - red) / (nir + red)
  else
    -999

/-- Source lines 60-69: `for (int i = 0; i < width * height; i++) { ... }`.
The first argument counts the iterations still to run, `i` is the loop
variable and `ndviBand` the output buffer, written at index `i`.  An access
outside a buffer (undefined in C) reads `0` or writes nothing here; none
occurs when the three buffers hold `width * height` samples. -/
def ndviLoop (scale : ℚ) (nirBand redBand : Array ℚ) : Nat → Nat → Array ℚ → Array ℚ
  | 0, _, ndviBand => ndviBand
  | k + 1, i, ndviBand =>
    ndviLoop scale nirBand redBand k (i + 1)
      (ndviBand.setD i (ndviPixel scale (nirBand.getD i 0) (redBand.getD i 0)))

/-- The NDVI transform with the scale as a parameter: the loop run from
`i = 0` for `width * height` iterations over the output buffer `ndviBand`
(whose initial contents are whatever `malloc` returned). -/
def ndviTransform (scale : ℚ) (width height : Nat) (nirBand redBand ndviBand : Array ℚ) :
    Array ℚ :=
  ndviLoop scale nirBand redBand (width * height) 0 ndviBand

/-- The NDVI transform of the program: scale fixed to `10000`. -/
def ndvi (width height : Nat) (nirBand redBand ndviBand : Array ℚ) : Array ℚ :=
  ndviTransform scale width height nirBand redBand ndviBand

/-- The formula on the raw samples, with no division by a scale at all. -/
def ndviRaw (a b : ℚ) : ℚ :=
  if a + b > 0 then (a - b) / (a + b) else -999

/-! ## The program around the loop

The library calls are modelled by their effect on explicit records; whether
`GDALOpen` and `GDALCreate` succeed is an input of `main`. -/

/-- A raster dataset as seen through the library handle: its size, its
projection string, the six coefficients of its geotransform, the samples of
band 1 in row-major order and the NoData value declared on that band. -/
structure Dataset where
  width : Nat
  height : Nat
  projection : String
  geoTransform : Fin 6 → ℚ
  band : Array ℚ
  noDataValue : Option ℚ

/-- What `main` leaves behind: the value it returns, what it wrote to the two
streams, and the dataset stored at `outputPath` (none when none was created). -/
structure Outcome where
  status : Int
  stderr : List String
  stdout : List String
  output : Option Dataset

/-- Source line 14. -/
def outputPath : String := "../output/c.tif"

/-- Source line 31, `GDALCreate(driver, outputPath, width, height, 1, GDT_Float32, NULL)`:
`NULL` when creation fails, otherwise a fresh single-band dataset of the
requested size with no projection, the identity geotransform, a zeroed band
and no NoData value. -/
def GDALCreate (createOk : Bool) (width height : Nat) : Option Dataset :=
  if createOk then
    some { width := width, height := height, projection := "",
           geoTransform := fun j => if j.val = 1 ∨ j.val = 5 then 1 else 0,
           band := mkArray (width * height) 0, noDataValue := none }
  else
    none

/-- Source lines 45-47, `malloc(sizeof(float) * width * height)`: a buffer of
`n` samples with indeterminate contents `garbage`. -/
def malloc (garbage : Nat → ℚ) (n : Nat) : Array ℚ :=
  Array.ofFn (fun (i : Fin n) => garbage i.val)

/-- Source lines 53-54, `GDALRasterIO(band, GF_Read, 0, 0, width, height, buf, width, height, GDT_Float32, 0, 0)`:
the window of `width × height` pixels at the origin of band 1 copied row by
row into `buf`; a window that does not fit the dataset makes the call fail
and leaves `buf` as it was. -/
def rasterRead (ds : Dataset) (width height : Nat) (buf : Array ℚ) : Array ℚ :=
  if width ≤ ds.width ∧ height ≤ ds.height then
    Array.ofFn (fun (i : Fin (width * height)) =>
      ds.band.getD ((i.val / width) * ds.width + i.val % width) 0)
  else
    buf

/-- Source lines 8-89.  `nirOpen` and `redOpen` are the results of the two
`GDALOpen` calls (`none` for `NULL`), `createOk` tells whether `GDALCreate`
succeeds, and `g1 g2 g3` are the contents of the three fresh buffers. -/
def main (nirOpen redOpen : Option Dataset) (createOk : Bool) (g1 g2 g3 : Nat → ℚ) : Outcome :=
  match nirOpen, redOpen with
  | some nirDS, some redDS =>
    let width := nirDS.width
    let height := nirDS.height
    match GDALCreate createOk width height with
    | none =>
      { status := 1, stderr := ["Error: Could not create output dataset\n"], stdout := [],
        output := none }
    | some outDS =>
      let outDS := { outDS with projection := nirDS.projection }
      let geoTransform := nirDS.geoTransform
      let outDS := { outDS with geoTransform := geoTransform }
      let nirBand := malloc g1 (width * height)
      let redBand := malloc g2 (width * height)
      let ndviBand := malloc g3 (width * height)
      let nirBand := rasterRead nirDS width height nirBand
      let redBand := rasterRead redDS width height redBand
      let ndviBand := ndviLoop scale nirBand redBand (width * height) 0 ndviBand
      let outDS := { outDS with band := ndviBand }
      let outDS := { outDS with noDataValue := some (-999) }
      { status := 0, stderr := [],
        stdout := ["NDVI calculation complete. Output saved to " ++ outputPath ++ "\n"],
        output := some outDS }
  | _, _ =>
    { status := 1, stderr := ["Error: Could not open input datasets\n"], stdout := [],
      output := none }

/-! ## Loop invariant -/

theorem ndviLoop_size (s : ℚ) (nirBand redBand : Array ℚ) (k i : Nat) (out : Array ℚ) :
    (ndviLoop s nirBand redBand k i out).size = out.size := by
  induction k generalizing i out with
  | zero => rfl
  | succ k ih => simp [ndviLoop, ih]

theorem getD_setD (a : Array ℚ) (i j : Nat) (v : ℚ) :
    (a.setD i v).getD j 0 = if i = j ∧ i < a.size then v else a.getD j 0 := by
  by_cases hi : i < a.size
  · by_cases hij : i = j
    · subst hij
      simp [Array.getD, Array.setD, hi]
    · by_cases hj : j < a.size
      · simp [Array.getD, Array.setD, hi, hj, hij, Array.get_set_ne]
      · simp [Array.getD, Array.setD, hi, hj, hij]
  · simp [Array.setD, hi]

theorem ndviLoop_getD (s : ℚ) (nirBand redBand : Array ℚ) (k i : Nat) (out : Array ℚ)
    (hk : i + k ≤ out.size) (j : Nat) :
    (ndviLoop s nirBand redBand k i out).getD j 0 =
      if i ≤ j ∧ j < i + k then ndviPixel s (nirBand.getD j 0) (redBand.getD j 0)
      else out.getD j 0 := by
  induction k generalizing i out with
  | zero =>
    have : ¬ (i ≤ j ∧ j < i + 0) := by omega
    rw [if_neg this]; rfl
  | succ k ih =>
    have hi : i < out.size := by omega
    rw [ndviLoop, ih (i + 1) _ (by simp; omega), getD_setD]
    by_cases h1 : i + 1 ≤ j ∧ j < i + 1 + k
    · have h2 : i ≤ j ∧ j < i + (k + 1) := by omega
      rw [if_pos h1, if_pos h2]
    · rw [if_neg h1]
      by_cases hij : i = j
      · subst hij
        have h2 : i ≤ i ∧ i < i + (k + 1) := by omega
        rw [if_pos h2, if_pos ⟨rfl, hi⟩]
      · have h2 : ¬ (i ≤ j ∧ j < i + (k + 1)) := by omega
        have h3 : ¬ (i = j ∧ i < out.size) := fun h => hij h.1
        rw [if_neg h2, if_neg h3]

theorem ndviTransform_getD (s : ℚ) (width height : Nat) (nirBand redBand out : Array ℚ)
    (hout : out.size = width * height) (j : Nat) (hj : j < width * height) :
    (ndviTransform s width height nirBand redBand out).getD j 0 =
      ndviPixel s (nirBand.getD j 0) (redBand.getD j 0) := by
  unfold ndviTransform
  rw [ndviLoop_getD s nirBand redBand (width * height) 0 out (by omega) j]
  have : 0 ≤ j ∧ j < 0 + width * height := by omega
  rw [if_pos this]

theorem ndviTransform_size (s : ℚ) (width height : Nat) (nirBand redBand out : Array ℚ) :
    (ndviTransform s width height nirBand redBand out).size = out.size :=
  ndviLoop_size s nirBand redBand (width * height) 0 out

theorem getD_of_getElem? (a : Array ℚ) (i : Nat) (v : ℚ) (h : a[i]? = some v) :
    i < a.size ∧ a.getD i 0 = v := by
  by_cases hi : i < a.size
  · refine ⟨hi, ?_⟩
    rw [Array.getElem?_eq_getElem hi] at h
    simp only [Array.getD, hi, dif_pos]
    exact Option.some.inj h
  · rw [Array.getElem?_size_le a i (by omega)] at h
    cases h

theorem getElem?_of_getD (a : Array ℚ) (i : Nat) (hi : i < a.size) :
    a[i]? = some (a.getD i 0) := by
  rw [Array.getElem?_eq_getElem hi]
  simp [Array.getD, hi]

/-- The loop stores at every index of the grid the pixel value of the two
samples at that index. -/
theorem ndviTransform_getElem? (s : ℚ) (width height : Nat) (nirBand redBand out : Array ℚ)
    (hout : out.size = width * height) (i : Nat) (hi : i < width * height) (a b : ℚ)
    (ha : nirBand[i]? = some a) (hb : redBand[i]? = some b) :
    (ndviTransform s width height nirBand redBand out)[i]? = some (ndviPixel s a b) := by
  have h1 := ndviTransform_getD s width height nirBand redBand out hout i hi
  rw [(getD_of_getElem? nirBand i a ha).2, (getD_of_getElem? redBand i b hb).2] at h1
  rw [← h1]
  apply getElem?_of_getD
  rw [ndviTransform_size, hout]
  exact hi

/-! ## The pixel formula -/

theorem guard_iff (s a b : ℚ) (hs : 0 < s) : a / s + b / s > 0 ↔ a + b > 0 := by
  rw [← add_div]
  constructor
  · intro h
    by_contra hn
    have : (a + b) / s ≤ 0 := div_nonpos_of_nonpos_of_nonneg (not_lt.mp hn) hs.le
    exact absurd h (not_lt.mpr this)
  · intro h
    exact div_pos h hs

theorem ratio_cancel (s a b : ℚ) (hs : 0 < s) :
    (a / s - b / s) / (a / s + b / s) = (a - b) / (a + b) := by
  rw [← add_div, ← sub_div]
  exact div_div_div_cancel_right₀ hs.ne.symm _ _

theorem ndviPixel_eq_ndviRaw (s a b : ℚ) (hs : 0 < s) : ndviPixel s a b = ndviRaw a b := by
  unfold ndviPixel ndviRaw
  by_cases h : a + b > 0
  · rw [if_pos h, if_pos ((guard_iff s a b hs).mpr h), ratio_cancel s a b hs]
  · rw [if_neg h, if_neg (fun h2 => h ((guard_iff s a b hs).mp h2))]

theorem scale_pos : (0 : ℚ) < scale := by
  unfold scale; norm_num

theorem ndviRaw_pos (a b : ℚ) (h : a + b > 0) : ndviRaw a b = (a - b) / (a + b) := by
  unfold ndviRaw; rw [if_pos h]

/-- Two runs of the loop whose pixel values agree on the indices still to be
visited produce the same buffer. -/
theorem ndviLoop_congr (s t : ℚ) (nirBand redBand nirBand2 redBand2 : Array ℚ) (k i : Nat)
    (out : Array ℚ)
    (h : ∀ j, i ≤ j → j < i + k →
      ndviPixel s (nirBand.getD j 0) (redBand.getD j 0) =
        ndviPixel t (nirBand2.getD j 0) (redBand2.getD j 0)) :
    ndviLoop s nirBand redBand k i out = ndviLoop t nirBand2 redBand2 k i out := by
  induction k generalizing i out with
  | zero => rfl
  | succ k ih =>
    rw [ndviLoop, ndviLoop, h i (le_refl i) (by omega)]
    apply ih
    intro j h1 h2
    exact h j (by omega) (by omega)

theorem getD_map_mul (band : Array ℚ) (k : ℚ) (j : Nat) :
    (band.map (fun x => k * x)).getD j 0 = k * band.getD j 0 := by
  by_cases hj : j < band.size
  · simp [Array.getD, hj]
  · simp [Array.getD, hj]

theorem getElem?_map_mul (band : Array ℚ) (k : ℚ) (i : Nat) (a : ℚ) (h : band[i]? = some a) :
    (band.map (fun x => k * x))[i]? = some (k * a) := by
  simp [Array.getElem?_map, h]

theorem ndviPixel_scale_mul (k s a b : ℚ) (hk : 0 < k) :
    ndviPixel (k * s) (k * a) (k * b) = ndviPixel s a b := by
  unfold ndviPixel
  simp only [mul_div_mul_left _ _ hk.ne.symm]

/-- C5: with the scale a parameter, for every positive `k`, every positive
scale `s` and input grids of equal length, the transform of `(k * nir, k * red)`
with scale `k * s` is the same output grid as the transform of `(nir, red)`
with scale `s`; at every pixel the raw-over-scale reflectances are the same,
the same branch is taken and the same value is stored. -/
theorem ndvi_scale_invariant (k s : ℚ) (hk : 0 < k) (_hs : 0 < s) (width height : Nat)
    (nirBand redBand ndviBand : Array ℚ)
    (_hn : nirBand.size = width * height) (_hr : redBand.size = width * height) :
    ndviTransform (k * s) width height
        (nirBand.map (fun x => k * x)) (redBand.map (fun x => k * x)) ndviBand =
      ndviTransform s width height nirBand redBand ndviBand ∧
    (∀ (i : Nat) (a b : ℚ), nirBand[i]? = some a → redBand[i]? = some b →
      (nirBand.map (fun x => k * x))[i]? = some (k * a) ∧
      (redBand.map (fun x => k * x))[i]? = some (k * b) ∧
      k * a / (k * s) = a / s ∧ k * b / (k * s) = b / s ∧
      (k * a / (k * s) + k * b / (k * s) > 0 ↔ a / s + b / s > 0) ∧
      ndviPixel (k * s) (k * a) (k * b) = ndviPixel s a b) := by
  constructor
  · unfold ndviTransform
    apply ndviLoop_congr
    intro j _ _
    rw [getD_map_mul, getD_map_mul, ndviPixel_scale_mul k s _ _ hk]
  · intro i a b ha hb
    exact ⟨getElem?_map_mul nirBand k i a ha, getElem?_map_mul redBand k i b hb,
      mul_div_mul_left _ _ hk.ne.symm, mul_div_mul_left _ _ hk.ne.symm,
      by rw [mul_div_mul_left _ _ hk.ne.symm, mul_div_mul_left _ _ hk.ne.symm],
      ndviPixel_scale_mul k s a b hk⟩

/-- Witness for C5: `k = 2`, scale `5000` against scale `10000`. -/
theorem ndvi_scale_invariant_witness :
    ndviTransform (2 * 5000) 3 1
        (#[2500, 0, -50].map (fun x => (2 : ℚ) * x)) (#[1000, 0, 25].map (fun x => (2 : ℚ) * x))
        #[7, 7, 7] =
      ndviTransform 5000 3 1 #[2500, 0, -50] #[1000, 0, 25] #[7, 7, 7] ∧
    (ndviTransform 5000 3 1 #[2500, 0, -50] #[1000, 0, 25] #[7, 7, 7]).toList =
      [3 / 7, -999, -999] :=
  ⟨(ndvi_scale_invariant 2 5000 (by norm_num) (by norm_num) 3 1
      #[2500, 0, -50] #[1000, 0, 25] #[7, 7, 7] rfl rfl).1, by
    simp [ndviTransform, ndviLoop, ndviPixel, Array.setD, Array.getD]
    norm_num⟩

/-- C8: in exact arithmetic, for every positive scale `s` and raw samples
`a`, `b`, the pixel takes the computed branch iff `a + b > 0` and its value is
then `(a - b) / (a + b)`: the loop output is the output of the formula on the
raw samples with no division by the scale, so the transform with scale `10000`
is the transform with any other positive scale. -/
theorem ndvi_scale_cancels (s : ℚ) (hs : 0 < s) (width height : Nat)
    (nirBand redBand ndviBand : Array ℚ) (ho : ndviBand.size = width * height) :
    (∀ a b : ℚ, (a / s + b / s > 0 ↔ a + b > 0) ∧
      (a + b > 0 → ndviPixel s a b = (a - b) / (a + b)) ∧
      ndviPixel s a b = ndviRaw a b) ∧
    (∀ (i : Nat) (a b : ℚ), i < width * height → nirBand[i]? = some a → redBand[i]? = some b →
      (ndviTransform s width height nirBand redBand ndviBand)[i]? = some (ndviRaw a b) ∧
      (ndvi width height nirBand redBand ndviBand)[i]? = some (ndviRaw a b)) ∧
    ndvi width height nirBand redBand ndviBand =
      ndviTransform s width height nirBand redBand ndviBand := by
  refine ⟨?_, ?_, ?_⟩
  · intro a b
    refine ⟨guard_iff s a b hs, ?_, ndviPixel_eq_ndviRaw s a b hs⟩
    · intro h
      rw [ndviPixel_eq_ndviRaw s a b hs, ndviRaw_pos a b h]
  · intro i a b hi ha hb
    constructor
    · rw [ndviTransform_getElem? s width height nirBand redBand ndviBand ho i hi a b ha hb,
        ndviPixel_eq_ndviRaw s a b hs]
    · unfold ndvi
      rw [ndviTransform_getElem? scale width height nirBand redBand ndviBand ho i hi a b ha hb,
        ndviPixel_eq_ndviRaw scale a b scale_pos]
  · unfold ndvi ndviTransform
    apply ndviLoop_congr
    intro j _ _
    rw [ndviPixel_eq_ndviRaw scale _ _ scale_pos, ndviPixel_eq_ndviRaw s _ _ hs]

/-- Witness for C8: scale `1 / 3` against the hard-coded `10000`. -/
theorem ndvi_scale_cancels_witness :
    ndvi 3 1 #[5000, 0, -100] #[2000, 0, 50] #[7, 7, 7] =
      ndviTransform (1 / 3) 3 1 #[5000, 0, -100] #[2000, 0, 50] #[7, 7, 7] ∧
    ndviPixel (1 / 3) 5000 2000 = ndviRaw 5000 2000 ∧
    ndviRaw 5000 2000 = 3 / 7 :=
  have h := ndvi_scale_cancels (1 / 3) (by norm_num) 3 1
    #[5000, 0, -100] #[2000, 0, 50] #[7, 7, 7] rfl
  ⟨h.2.2, (h.1 5000 2000).2.2, by norm_num [ndviRaw]⟩

/-! ## Non-negative samples (C9) -/

/-- Without the sign condition a value of the computed branch can be the
sentinel: raw `(-9980000, 10000000)` has reflectances `-998` and `1000`, of
positive sum `2`, and the loop stores `-1998 / 2 = -999`. -/
theorem computed_value_can_be_sentinel :
    (-9980000 : ℚ) / scale + 10000000 / scale > 0 ∧
    ndviPixel scale (-9980000) 10000000 = -999 := by
  constructor <;> norm_num [ndviPixel, scale]

/-- C6: `main` returns a non-zero status if and only if the NIR input cannot
be opened, or the red input cannot be opened, or the output dataset cannot be
created; in every other case it returns `0`.  The confirmation message naming
the output path is printed exactly when the status is `0`, and a failing run
writes a diagnostic message instead. -/
theorem main_exit_status (nirOpen redOpen : Option Dataset) (createOk : Bool)
    (g1 g2 g3 : Nat → ℚ) :
    ((main nirOpen redOpen createOk g1 g2 g3).status ≠ 0 ↔
      (nirOpen = none ∨ redOpen = none ∨ createOk = false)) ∧
    (¬ (nirOpen = none ∨ redOpen = none ∨ createOk = false) →
      (main nirOpen redOpen createOk g1 g2 g3).status = 0) ∧
    ((main nirOpen redOpen createOk g1 g2 g3).stdout =
        ["NDVI calculation complete. Output saved to " ++ outputPath ++ "\n"] ↔
      (main nirOpen redOpen createOk g1 g2 g3).status = 0) ∧
    ((main nirOpen redOpen createOk g1 g2 g3).status ≠ 0 →
      (main nirOpen redOpen createOk g1 g2 g3).stdout = [] ∧
      (main nirOpen redOpen createOk g1 g2 g3).stderr ≠ []) := by
  cases nirOpen <;> cases redOpen <;> cases createOk <;> simp [main, GDALCreate]

/-- On a successful run the band written to the output is the NDVI transform
of the two buffers filled by the reads. -/
theorem main_band (nirDS redDS : Dataset) (g1 g2 g3 : Nat → ℚ) :
    ∃ outDS, (main (some nirDS) (some redDS) true g1 g2 g3).output = some outDS ∧
      outDS.band = ndvi nirDS.width nirDS.height
        (rasterRead nirDS nirDS.width nirDS.height (malloc g1 (nirDS.width * nirDS.height)))
        (rasterRead redDS nirDS.width nirDS.height (malloc g2 (nirDS.width * nirDS.height)))
        (malloc g3 (nirDS.width * nirDS.height)) :=
  ⟨_, rfl, rfl⟩

/-- C7: on every successful run the output dataset has the projection string
and the six geotransform coefficients of the near-infrared input and its width
and height; these, and the declared NoData value, are the same whatever the
red input is, and replacing the projection and geotransform of the red input
changes nothing of what `main` leaves behind. -/
theorem main_metadata_passthrough (nirDS redDS : Dataset) (g1 g2 g3 : Nat → ℚ) :
    ∃ outDS, (main (some nirDS) (some redDS) true g1 g2 g3).output = some outDS ∧
      (main (some nirDS) (some redDS) true g1 g2 g3).status = 0 ∧
      outDS.projection = nirDS.projection ∧
      (∀ j : Fin 6, outDS.geoTransform j = nirDS.geoTransform j) ∧
      outDS.width = nirDS.width ∧
      outDS.height = nirDS.height ∧
      (∀ (redDS2 : Dataset) (h1 h2 h3 : Nat → ℚ),
        ∃ outDS2, (main (some nirDS) (some redDS2) true h1 h2 h3).output = some outDS2 ∧
          outDS2.projection = outDS.projection ∧
          outDS2.geoTransform = outDS.geoTransform ∧
          outDS2.width = outDS.width ∧
          outDS2.height = outDS.height ∧
          outDS2.noDataValue = outDS.noDataValue) ∧
      (∀ (p : String) (t : Fin 6 → ℚ),
        main (some nirDS) (some { redDS with projection := p, geoTransform := t }) true g1 g2 g3 =
          main (some nirDS) (some redDS) true g1 g2 g3) := by
  refine ⟨_, rfl, rfl, rfl, fun _ => rfl, rfl, rfl, ?_, ?_⟩
  · intro redDS2 h1 h2 h3
    exact ⟨_, rfl, rfl, rfl, rfl, rfl, rfl⟩
  · intro p t
    rfl

end NDVI
